import Mathlib

/-!
Verification of the `common-host-api` repository (a Selenium-based
authentication lifecycle wrapper plus small utilities) via a shallow
embedding of its Python code into Lean.

Conventions of the embedding:
* Python values that flow through truthiness checks are modelled by the
  inductive `PyValue` with the Python truthiness function `PyValue.truthy`.
* A Python function that can raise is embedded as a function into
  `Except ε α`; `Except.error` is a raised exception, `Except.ok` a normal
  return.
* Python `dict`s are modelled as association lists with unique keys
  (written as `List (String × PyValue)` plus `List.lookup`).
* `None`-able return values are `Option`s.
-/

deriving instance DecidableEq for Except

namespace CommonHostApi

/-- Model of the Python values that the repository passes through truthiness
checks and stores in the private-data JSON file: strings, integers,
booleans and `None`. -/
inductive PyValue where
  | str (s : String)
  | int (n : Int)
  | bool (b : Bool)
  | pyNone
deriving DecidableEq, Repr

/-- Python truthiness (`bool(v)`): a string is truthy iff non-empty, an
integer iff non-zero, a boolean iff `True`, and `None` is falsy. -/
def PyValue.truthy : PyValue → Bool
  | .str s => !(s = "")
  | .int n => !(n = 0)
  | .bool b => b
  | .pyNone => false

/-- Model of Python `s.split(sep, 1)` on a list of characters: `none` when
the separator does not occur (Python returns a one-element list, so
unpacking into two variables raises `ValueError`), otherwise the text
before the first occurrence and the rest after it. -/
def splitFirstAt (sep : Char) : List Char → Option (List Char × List Char)
  | [] => none
  | c :: rest =>
    if c = sep then some ([], rest)
    else
      match splitFirstAt sep rest with
      | some (p, d) => some (c :: p, d)
      | none => none

/-- Embedding of `base.mask_email_prefix` (src/base.py:41-48).

```python
def mask_email_prefix(s):
    if not s:
        return None
    prefix, domain = s.split('@', 1)
    if len(prefix) < 4:
        return s
    masked = prefix[:3] + '*****' + prefix[-1]
    return f"{masked}@{domain}"
```

The `Except` layer records that the two-variable unpacking raises
`ValueError` when `'@'` does not occur in a non-empty `s`; the `Option`
layer is the Python `None` return on a falsy (empty) string. -/
def mask_email_prefix (s : String) : Except String (Option String) :=
  if s = "" then Except.ok Option.none
  else
    match splitFirstAt '@' s.toList with
    | Option.none =>
      Except.error "not enough values to unpack (expected 2, got 1)"
    | Option.some (pfx, domain) =>
      if pfx.length < 4 then Except.ok (Option.some s)
      else
        Except.ok (Option.some (String.mk
          (pfx.take 3 ++ ['*', '*', '*', '*', '*']
            ++ pfx.drop (pfx.length - 1) ++ '@' :: domain)))

/-- Embedding of `base.raise_if_blank` (src/base.py:50-61): walk the mapping
in order and raise `InvalidParameterError` at the first falsy value.

```python
for arg_name, arg in args.items():
    if not arg:
        raise InvalidParameterError(f"Wrong usage: {arg_name} cannot be blank.")
```
-/
def raise_if_blank : List (String × PyValue) → Except String Unit
  | [] => Except.ok ()
  | (arg_name, arg) :: rest =>
    if arg.truthy then raise_if_blank rest
    else Except.error ("Wrong usage: " ++ arg_name ++ " cannot be blank.")

/-- Model of a `requests.Response` as far as this repository inspects it:
the integer status code and the (possibly missing) reason phrase. -/
structure PyResponse where
  status_code : Nat
  reason : Option String
deriving DecidableEq, Repr

/-- The outcome of `raise_auth_error_or_for_status`: normal return, a raised
`AuthenticationError` with its message, or a raised `requests.HTTPError`
for the given status. -/
inductive AuthOutcome where
  | ok
  | authError (msg : String)
  | httpError (status : Nat)
deriving DecidableEq, Repr

/-- Model of `requests.Response.raise_for_status` (external library,
behavior as documented and relied on by the repository): raises
`HTTPError` exactly for 4xx and 5xx status codes, otherwise returns. -/
def pyRaiseForStatus (response : PyResponse) : AuthOutcome :=
  if 400 ≤ response.status_code ∧ response.status_code < 600
  then AuthOutcome.httpError response.status_code
  else AuthOutcome.ok

/-- Python `needle.lower() in hay.lower()`: case-insensitive substring
containment, `lower` modelled characterwise by `Char.toLower`. -/
def lowerContains (hay needle : String) : Bool :=
  decide (needle.toLower.toList <:+: hay.toLower.toList)

/-- Embedding of `base.raise_auth_error_or_for_status` (src/base.py:64-80).

```python
reason_ok = status_reason.get(response.status_code)
if reason_ok and reason_ok.lower() in (response.reason or "").lower():
    raise AuthenticationError(msg)
response.raise_for_status()
```

The dict `status_reason` is an association list; `reason_ok and …`
short-circuits on a missing entry or an empty expected-reason string. -/
def raise_auth_error_or_for_status (response : PyResponse)
    (status_reason : List (Nat × String)) (msg : String) : AuthOutcome :=
  match List.lookup response.status_code status_reason with
  | Option.some reason_ok =>
    if !(reason_ok = "") && lowerContains ((response.reason).getD "") reason_ok
    then AuthOutcome.authError msg
    else pyRaiseForStatus response
  | Option.none => pyRaiseForStatus response

/-- Model of a `selenium TimeoutException` object; the tag stands for the
identity of the raised exception object, so that `__cause__` chaining can
be stated as value equality. -/
structure PyTimeoutException where
  tag : Nat
deriving DecidableEq, Repr

/-- Model of a raised `ScrapingError`: its message and its `__cause__`
(set by `raise … from original_exception`). -/
structure PyScrapingError where
  msg : String
  cause : Option PyTimeoutException
deriving DecidableEq, Repr

/-- Python `f"{locator}"` for a Selenium locator tuple of two strings
(escaping inside the strings is not modelled). -/
def formatLocator (locator : String × String) : String :=
  "('" ++ locator.1 ++ "', '" ++ locator.2 ++ "')"

/-- Embedding of `base.raise_scraping_error` (src/base.py:83-103): always
produces a `ScrapingError` whose message depends on the optional extra
condition and whose `__cause__` is the original exception.

```python
msg = (f"{extra_raise_condition} and none of expected locators: {locators} were not found."
       if extra_raise_condition
       else f"None of expected locators: {locators} were not found.")
raise ScrapingError(msg) from original_exception
```
-/
def raise_scraping_error (locators : String)
    (original_exception : PyTimeoutException)
    (extra_raise_condition : Option String) : PyScrapingError :=
  { msg :=
      match extra_raise_condition with
      | Option.some cond =>
        cond ++ " and none of expected locators: " ++ locators
          ++ " were not found."
      | Option.none =>
        "None of expected locators: " ++ locators ++ " were not found."
  , cause := Option.some original_exception }

/-- State of a page element as far as the repository mutates it: the value
of its `style.display` CSS property. -/
structure Element where
  displayStyle : String
deriving DecidableEq, Repr

/-- The environment a wait-helper call runs against: at which poll tick (if
ever) the element matching the locator becomes present, the element the
wait would return, and the identity tag of the `TimeoutException` the wait
raises on timeout. -/
structure DriverEnv where
  appearsAt : Option Nat
  element : Element
  timeoutTag : Nat
deriving DecidableEq, Repr

/-- Model of `WebDriverWait(driver, timeout).until(EC.presence_of_element_located(locator))`
(external library): returns the element if it becomes present within the
timeout, otherwise raises `TimeoutException`. -/
def webDriverWaitUntil (env : DriverEnv) (timeout : Nat) :
    Except PyTimeoutException Element :=
  match env.appearsAt with
  | Option.some t =>
    if t ≤ timeout then Except.ok env.element
    else Except.error { tag := env.timeoutTag }
  | Option.none => Except.error { tag := env.timeoutTag }

/-- Embedding of `BaseScraping._hide_locator` (src/base.py:197-219): wait
for the element; on `TimeoutException` raise via `raise_scraping_error`;
otherwise run `arguments[0].style.display = 'none';` on it.  The returned
element is the page element's state after the call. -/
def hide_locator (env : DriverEnv) (locator : String × String)
    (timeout : Nat) : Except PyScrapingError Element :=
  match webDriverWaitUntil env timeout with
  | Except.error e =>
    Except.error (raise_scraping_error (formatLocator locator) e Option.none)
  | Except.ok cookie_window =>
    Except.ok { cookie_window with displayStyle := "none" }

/-- Embedding of `BaseScraping._is_locator_found` (src/base.py:221-241):
the `TimeoutException` from the wait is caught (logged) and turned into
`False`; presence gives `True`.  The `Except` layer records that no
exception escapes the method. -/
def is_locator_found (env : DriverEnv) (timeout : Nat) :
    Except PyTimeoutException Bool :=
  match webDriverWaitUntil env timeout with
  | Except.error _ => Except.ok false
  | Except.ok _ => Except.ok true

/-- Observable events of the authentication lifecycle: starting the Chrome
driver (`_init_driver` reaching `webdriver.Chrome(...)`), invoking the
subclass login hook `_login`, calling `driver.quit()`, and writing a log
record. -/
inductive Ev where
  | driverStart
  | loginCall
  | quit
  | log (msg : String)
deriving DecidableEq, Repr

/-- Behavior of the abstract subclass hook `BaseScraping._login`: it either
returns normally or raises some exception `e : ε` (`ε` is kept abstract so
that any exception type is covered and no wrapping can be hidden). -/
inductive HookBehavior (ε : Type) where
  | ok
  | raises (e : ε)

/-- A Python statement sequence as a trace transformer: it appends the
events it performs to the trace and either returns a value or raises. -/
def PyM (ε α : Type) : Type := List Ev → List Ev × Except ε α

/-- Perform one event and return normally. -/
def emit {ε : Type} (ev : Ev) : PyM ε Unit := fun l => (l ++ [ev], Except.ok ())

/-- Sequencing of Python statements: a raised exception skips the rest. -/
def seqM {ε α β : Type} (m : PyM ε α) (f : α → PyM ε β) : PyM ε β := fun l =>
  match m l with
  | (l1, Except.ok a) => f a l1
  | (l1, Except.error e) => (l1, Except.error e)

/-- Python `try: body / except Exception as e: handler(e); raise`: on an
exception the handler runs and then the same exception object is
re-raised (unless the handler itself raises, in which case that
exception propagates instead). -/
def tryExceptReraise {ε α : Type} (body : PyM ε α) (handler : ε → PyM ε Unit) :
    PyM ε α := fun l =>
  match body l with
  | (l1, Except.ok a) => (l1, Except.ok a)
  | (l1, Except.error e) =>
    match handler e l1 with
    | (l2, Except.ok _) => (l2, Except.error e)
    | (l2, Except.error e2) => (l2, Except.error e2)

/-- Python `try: body / finally: fin`: the finalizer runs on every exit
path; its own exception (none occurs here) would replace the body's. -/
def tryFinallyM {ε α : Type} (body : PyM ε α) (fin : PyM ε Unit) :
    PyM ε α := fun l =>
  match body l with
  | (l1, r) =>
    match fin l1 with
    | (l2, Except.ok _) => (l2, r)
    | (l2, Except.error e2) => (l2, Except.error e2)

/-- Embedding of `BaseScraping._init_driver` (src/base.py:131-167) at the
granularity the claims need: it starts the Chrome driver and logs
"Selenium WebDriver started.". -/
def init_driver {ε : Type} : PyM ε Unit :=
  seqM (emit Ev.driverStart)
    (fun _ => emit (Ev.log "Selenium WebDriver started."))

/-- Running the abstract subclass hook `self._login(self._driver)`: the
call itself is an observable event, after which the hook returns or
raises according to its behavior. -/
def runLogin {ε : Type} (hook : HookBehavior ε) : PyM ε Unit := fun l =>
  match hook with
  | HookBehavior.ok => (l ++ [Ev.loginCall], Except.ok ())
  | HookBehavior.raises e => (l ++ [Ev.loginCall], Except.error e)

/-- Embedding of `BaseScraping.authenticate_and_setup` (src/base.py:169-187)
run from the empty trace.

```python
logger.info("Authorization started for %s", ...)
self._init_driver()
try:
    self._login(self._driver)
    logger.info("Authorization successful for %s", ...)
except Exception as e:
    logger.exception("Authorization failed for %s", ...)
    raise
finally:
    self._driver.quit()
    logger.info("Selenium WebDriver closed.")
```

The masked-identifier argument of each log record is not modelled (log
messages carry their fixed leading text). -/
def authenticate_and_setup {ε : Type} (hook : HookBehavior ε) :
    List Ev × Except ε Unit :=
  (seqM (emit (Ev.log "Authorization started"))
    (fun _ => seqM init_driver
      (fun _ => tryFinallyM
        (tryExceptReraise
          (seqM (runLogin hook)
            (fun _ => emit (Ev.log "Authorization successful")))
          (fun _ => emit (Ev.log "Authorization failed")))
        (seqM (emit Ev.quit)
          (fun _ => emit (Ev.log "Selenium WebDriver closed.")))))) []

/-- Python `k in d` for the dict model. -/
def dictKeyMem (d : List (String × PyValue)) (k : String) : Bool :=
  d.any (fun p => p.1 = k)

/-- Python `d[k] = v` on a dict: replace the value of an existing key in
place, otherwise append the new binding at the end. -/
def dictSet (d : List (String × PyValue)) (k : String) (v : PyValue) :
    List (String × PyValue) :=
  if dictKeyMem d k then d.map (fun p => if p.1 = k then (k, v) else p)
  else d ++ [(k, v)]

/-- Python `d.update(kvs)`: set each binding of `kvs` in order. -/
def dictUpdate (d : List (String × PyValue))
    (kvs : List (String × PyValue)) : List (String × PyValue) :=
  kvs.foldl (fun acc p => dictSet acc p.1 p.2) d

/-- Embedding of `tests.common.write_private_data_to_file`
(src/tests/common.py:65-81) as a pure file transformer: the JSON object
read from the file is updated, under the advisory lock, with the truthy
keyword arguments only, and written back.

```python
with lock:
    with open(PRIVATE_DATA_FILE_PATH, "r") as f:
        data = json.load(f)
    data.update({key: value for key, value in kwargs.items() if value})
    with open(PRIVATE_DATA_FILE_PATH, 'w') as f:
        json.dump(data, f, indent=4, ensure_ascii=False)
```
-/
def write_private_data_to_file (fileData : List (String × PyValue))
    (kwargs : List (String × PyValue)) : List (String × PyValue) :=
  dictUpdate fileData (kwargs.filter (fun p => p.2.truthy))

/-- The last value bound to `k` in an update list, scanning from the end;
`none` when `k` does not occur.  This is what a sequence of in-order
`dictSet`s leaves behind for `k`. -/
def lastAssoc (k : String) : List (String × PyValue) → Option PyValue
  | [] => Option.none
  | p :: rest =>
    match lastAssoc k rest with
    | Option.some v => Option.some v
    | Option.none => if p.1 = k then Option.some p.2 else Option.none

example : mask_email_prefix "abcdef@x.com"
    = Except.ok (Option.some "abc*****f@x.com") := by decide

example : mask_email_prefix "" = Except.ok Option.none := by decide

example : mask_email_prefix "ab@x.com" = Except.ok (Option.some "ab@x.com") := by
  decide

example : mask_email_prefix "abc" =
    Except.error "not enough values to unpack (expected 2, got 1)" := by decide

example : raise_if_blank [("a", PyValue.str ""), ("b", PyValue.str "x")]
    = Except.error "Wrong usage: a cannot be blank." := by decide

example : raise_if_blank [("b", PyValue.str "x")] = Except.ok () := by decide

theorem splitFirstAt_of_not_mem {sep : Char} {l : List Char} (h : sep ∉ l) :
    splitFirstAt sep l = Option.none := by
  induction l with
  | nil => rfl
  | cons c rest ih =>
    have hc : ¬(c = sep) := by
      rintro rfl
      exact h (List.mem_cons_self c rest)
    have hrest : sep ∉ rest := fun hm => h (List.mem_cons_of_mem c hm)
    simp [splitFirstAt, hc, ih hrest]

theorem splitFirstAt_of_mem {sep : Char} {l : List Char} (h : sep ∈ l) :
    ∃ p d, splitFirstAt sep l = Option.some (p, d) := by
  induction l with
  | nil => cases h
  | cons c rest ih =>
    by_cases hc : c = sep
    · exact ⟨[], rest, by simp [splitFirstAt, hc]⟩
    · have hmem : sep ∈ rest := by
        rcases List.mem_cons.mp h with h1 | h2
        · exact absurd h1.symm hc
        · exact h2
      rcases ih hmem with ⟨p, d, hpd⟩
      exact ⟨c :: p, d, by simp [splitFirstAt, hc, hpd]⟩

/-- Claim C4: masking the empty string returns `None`; masking an email
whose local part (the text before the first `'@'`) has length < 4 returns
the input unchanged; and masking `"abcdef@x.com"` returns
`"abc*****f@x.com"`. -/
theorem mask_email_spec :
    mask_email_prefix "" = Except.ok Option.none ∧
    (∀ (s : String) (p d : List Char),
      splitFirstAt '@' s.toList = Option.some (p, d) → p.length < 4 →
      mask_email_prefix s = Except.ok (Option.some s)) ∧
    mask_email_prefix "abcdef@x.com"
      = Except.ok (Option.some "abc*****f@x.com") := by
  refine ⟨by decide, ?_, by decide⟩
  intro s p d hsplit hlen
  have hne : s ≠ "" := by
    rintro rfl
    rw [show ("" : String).toList = [] from rfl] at hsplit
    simp [splitFirstAt] at hsplit
  unfold mask_email_prefix
  rw [if_neg hne, hsplit]
  simp [hlen]

/-- Witness for C4: a concrete email with a short local part is returned
unchanged. -/
theorem mask_email_spec_witness :
    mask_email_prefix "ab@x.com" = Except.ok (Option.some "ab@x.com") :=
  mask_email_spec.2.1 "ab@x.com" ['a', 'b'] "x.com".toList (by decide) (by decide)

/-- Claim C10: `mask_email_prefix` is partial on its public interface: on
every non-empty string with no `'@'` the two-variable unpacking raises,
and it returns normally exactly on blank input or input containing
`'@'`. -/
theorem mask_email_partiality (s : String) :
    (s ≠ "" → (∀ c ∈ s.toList, c ≠ '@') →
      mask_email_prefix s
        = Except.error "not enough values to unpack (expected 2, got 1)") ∧
    (( mask_email_prefix s).isOk = true ↔ (s = "" ∨ '@' ∈ s.toList)) := by
  constructor
  · intro hne hno
    have hnm : '@' ∉ s.toList := fun hmem => hno '@' hmem rfl
    unfold mask_email_prefix
    rw [if_neg hne, splitFirstAt_of_not_mem hnm]
  · unfold mask_email_prefix
    by_cases hs : s = ""
    · simp [hs, Except.isOk, Except.toBool]
    · rw [if_neg hs]
      by_cases hmem : '@' ∈ s.toList
      · rcases splitFirstAt_of_mem hmem with ⟨p, d, hpd⟩
        rw [hpd]
        have hmem2 : '@' ∈ s.data := hmem
        by_cases hlen : p.length < 4 <;>
          simp [hlen, hs, hmem2, Except.isOk, Except.toBool]
      · rw [splitFirstAt_of_not_mem hmem]
        have hmem2 : '@' ∉ s.data := hmem
        simp [hs, hmem2, Except.isOk, Except.toBool]

/-- Witness for C10: the concrete non-empty `'@'`-free string `"abc"`
makes `mask_email_prefix` raise. -/
theorem mask_email_partiality_witness :
    mask_email_prefix "abc"
      = Except.error "not enough values to unpack (expected 2, got 1)" :=
  (mask_email_partiality "abc").1 (by decide) (by decide)

/-- Claim C7: `raise_if_blank` on `{"a": "", "b": "x"}` raises
`InvalidParameterError` with a message mentioning `"a"`; on
`{"b": "x"}` it returns normally; and in general it returns normally
exactly when every value in the mapping is truthy. -/
theorem raise_if_blank_spec :
    (∃ m, raise_if_blank [("a", PyValue.str ""), ("b", PyValue.str "x")]
        = Except.error m ∧ "a".toList <:+: m.toList) ∧
    raise_if_blank [("b", PyValue.str "x")] = Except.ok () ∧
    (∀ args : List (String × PyValue),
      raise_if_blank args = Except.ok () ↔ ∀ p ∈ args, p.2.truthy = true) := by
  refine ⟨⟨"Wrong usage: a cannot be blank.", by decide, by decide⟩,
    by decide, ?_⟩
  intro args
  induction args with
  | nil => simp [raise_if_blank]
  | cons p rest ih =>
    obtain ⟨name, v⟩ := p
    by_cases hv : v.truthy = true
    · simp [raise_if_blank, hv, ih]
    · simp only [raise_if_blank, hv, if_neg]
      constructor
      · intro hcon
        cases hcon
      · intro hall
        exact absurd (hall (name, v) (List.mem_cons_self _ _)) hv

theorem pyRaiseForStatus_ne_authError (response : PyResponse) (m : String) :
    pyRaiseForStatus response ≠ AuthOutcome.authError m := by
  unfold pyRaiseForStatus
  by_cases h : 400 ≤ response.status_code ∧ response.status_code < 600 <;>
    simp [h]

/-- Claim C8: `raise_auth_error_or_for_status` raises
`AuthenticationError msg` exactly when the expected table maps the status
code to a non-empty reason that occurs case-insensitively in the
response's reason (missing reason treated as empty); in every other case
it defers to `raise_for_status`, which raises only for HTTP error
statuses (4xx/5xx). -/
theorem raise_auth_error_or_for_status_spec (response : PyResponse)
    (status_reason : List (Nat × String)) (msg : String) :
    (raise_auth_error_or_for_status response status_reason msg
        = AuthOutcome.authError msg ↔
      ∃ r, List.lookup response.status_code status_reason = Option.some r ∧
        r ≠ "" ∧ lowerContains ((response.reason).getD "") r = true) ∧
    (raise_auth_error_or_for_status response status_reason msg
        = AuthOutcome.authError msg ∨
      raise_auth_error_or_for_status response status_reason msg
        = pyRaiseForStatus response) ∧
    (pyRaiseForStatus response = AuthOutcome.ok ↔
      (response.status_code < 400 ∨ 600 ≤ response.status_code)) := by
  refine ⟨?_, ?_, ?_⟩
  · unfold raise_auth_error_or_for_status
    cases hlk : List.lookup response.status_code status_reason with
    | none =>
      constructor
      · intro h
        exact absurd h (pyRaiseForStatus_ne_authError response msg)
      · rintro ⟨r, hr, -, -⟩
        cases hr
    | some r =>
      dsimp only
      by_cases hcond :
          (!(r = "") && lowerContains ((response.reason).getD "") r) = true
      · rw [if_pos hcond]
        rcases Bool.and_eq_true_iff.mp hcond with ⟨hne, hlc⟩
        constructor
        · intro _
          exact ⟨r, rfl, by simpa using hne, hlc⟩
        · intro _
          rfl
      · rw [if_neg hcond]
        constructor
        · intro h
          exact absurd h (pyRaiseForStatus_ne_authError response msg)
        · rintro ⟨r2, hr2, hne2, hlc2⟩
          apply absurd hcond
          rw [Option.some.injEq] at hr2
          subst hr2
          simp [hne2, hlc2]
  · unfold raise_auth_error_or_for_status
    cases hlk : List.lookup response.status_code status_reason with
    | none => right; rfl
    | some r =>
      dsimp only
      by_cases hcond :
          (!(r = "") && lowerContains ((response.reason).getD "") r) = true
      · left
        rw [if_pos hcond]
      · right
        rw [if_neg hcond]
  · unfold pyRaiseForStatus
    by_cases h : 400 ≤ response.status_code ∧ response.status_code < 600 <;>
      simp [h] <;> omega

/-- Claim C5: when the element never appears within the timeout,
`_hide_locator` raises a `ScrapingError` whose `__cause__` is the
`TimeoutException` raised by the wait; when it appears within the
timeout, no exception is raised and afterwards the element's
`style.display` is `"none"`. -/
theorem hide_locator_spec (env : DriverEnv) (locator : String × String)
    (timeout : Nat) :
    ((∀ t, env.appearsAt = Option.some t → timeout < t) →
      ∃ te err, webDriverWaitUntil env timeout = Except.error te ∧
        hide_locator env locator timeout = Except.error err ∧
        err.cause = Option.some te) ∧
    (∀ t, env.appearsAt = Option.some t → t ≤ timeout →
      ∃ el, hide_locator env locator timeout = Except.ok el ∧
        el.displayStyle = "none") := by
  constructor
  · intro hlate
    refine ⟨{ tag := env.timeoutTag },
      raise_scraping_error (formatLocator locator)
        { tag := env.timeoutTag } Option.none, ?_, ?_, rfl⟩
    · unfold webDriverWaitUntil
      cases happ : env.appearsAt with
      | none => rfl
      | some t =>
        dsimp only
        rw [if_neg (Nat.not_le.mpr (hlate t happ))]
    · unfold hide_locator webDriverWaitUntil
      cases happ : env.appearsAt with
      | none => rfl
      | some t =>
        dsimp only
        rw [if_neg (Nat.not_le.mpr (hlate t happ))]
  · intro t happ hle
    refine ⟨{ env.element with displayStyle := "none" }, ?_, rfl⟩
    unfold hide_locator webDriverWaitUntil
    rw [happ]
    dsimp only
    rw [if_pos hle]

/-- Witness for C5: with a concrete environment in which the element never
appears, the call raises a `ScrapingError` chained to the wait's
`TimeoutException`. -/
theorem hide_locator_spec_witness :
    ∃ te err,
      webDriverWaitUntil
        { appearsAt := Option.none, element := { displayStyle := "block" },
          timeoutTag := 7 } 5 = Except.error te ∧
      hide_locator
        { appearsAt := Option.none, element := { displayStyle := "block" },
          timeoutTag := 7 } ("css selector", "#cookie") 5
        = Except.error err ∧
      err.cause = Option.some te :=
  (hide_locator_spec
    { appearsAt := Option.none, element := { displayStyle := "block" },
      timeoutTag := 7 } ("css selector", "#cookie") 5).1
    (fun t h => nomatch h)

/-- Claim C6: `_is_locator_found` never lets an exception escape; it
returns `True` exactly when the element becomes present within the
timeout and `False` otherwise. -/
theorem is_locator_found_spec (env : DriverEnv) (timeout : Nat) :
    ( is_locator_found env timeout).isOk = true ∧
    ( is_locator_found env timeout = Except.ok true ↔
      ∃ t, env.appearsAt = Option.some t ∧ t ≤ timeout) ∧
    ( is_locator_found env timeout = Except.ok false ↔
      ¬ ∃ t, env.appearsAt = Option.some t ∧ t ≤ timeout) := by
  unfold is_locator_found webDriverWaitUntil
  cases happ : env.appearsAt with
  | none =>
    refine ⟨rfl, ?_, ?_⟩ <;> simp
  | some t =>
    dsimp only
    by_cases hle : t ≤ timeout
    · rw [if_pos hle]
      refine ⟨rfl, ?_, ?_⟩ <;> simp [hle]
    · rw [if_neg hle]
      refine ⟨rfl, ?_, ?_⟩ <;> simp [hle]

theorem auth_trace_ok {ε : Type} :
    authenticate_and_setup (HookBehavior.ok : HookBehavior ε)
      = ([Ev.log "Authorization started", Ev.driverStart,
          Ev.log "Selenium WebDriver started.", Ev.loginCall,
          Ev.log "Authorization successful", Ev.quit,
          Ev.log "Selenium WebDriver closed."], Except.ok ()) := rfl

theorem auth_trace_raises {ε : Type} (e : ε) :
    authenticate_and_setup (HookBehavior.raises e)
      = ([Ev.log "Authorization started", Ev.driverStart,
          Ev.log "Selenium WebDriver started.", Ev.loginCall,
          Ev.log "Authorization failed", Ev.quit,
          Ev.log "Selenium WebDriver closed."], Except.error e) := rfl

/-- Claim C1: for every behavior of the subclass login hook (normal return
or raising any exception), `authenticate_and_setup` calls `quit` on the
driver handle exactly once, and only after the driver has been started;
no exit path skips it and none doubles it. -/
theorem authenticate_and_setup_quits_once {ε : Type} (hook : HookBehavior ε) :
    ( authenticate_and_setup hook).1.count Ev.quit = 1 ∧
    ( authenticate_and_setup hook).1.indexOf Ev.driverStart
      < ( authenticate_and_setup hook).1.indexOf Ev.quit := by
  cases hook with
  | ok =>
    rw [auth_trace_ok]
    exact ⟨rfl, by dsimp only; decide⟩
  | raises e =>
    rw [auth_trace_raises]
    exact ⟨rfl, by dsimp only; decide⟩

/-- Claim C2: every exception raised by the login hook propagates out of
`authenticate_and_setup` as the very same value (no wrapping, no
translation), and the hook is invoked exactly once (no retry). -/
theorem authenticate_and_setup_reraises {ε : Type} (e : ε) :
    ( authenticate_and_setup (HookBehavior.raises e)).2 = Except.error e ∧
    ( authenticate_and_setup (HookBehavior.raises e)).1.count Ev.loginCall
      = 1 := by
  rw [auth_trace_raises]
  exact ⟨rfl, rfl⟩

/-- Python `data.get(k)` on the dict model: the value of the (unique)
binding of `k`, scanning from the front. -/
def pyLookup (k : String) : List (String × PyValue) → Option PyValue
  | [] => Option.none
  | p :: rest => if p.1 = k then Option.some p.2 else pyLookup k rest

theorem pyLookup_map_replace (k k' : String) (v : PyValue)
    (d : List (String × PyValue)) :
    pyLookup k' (d.map (fun p => if p.1 = k then (k, v) else p))
      = if k' = k then (pyLookup k d).map (fun _ => v)
        else pyLookup k' d := by
  induction d with
  | nil => by_cases hk : k' = k <;> simp [pyLookup, hk]
  | cons p rest ih =>
    obtain ⟨a, b⟩ := p
    by_cases ha : a = k
    · subst ha
      by_cases hk : k' = a
      · subst hk
        simp [pyLookup, ih]
      · have hk2 : ¬(a = k') := fun h => hk h.symm
        simp [pyLookup, hk, hk2, ih]
    · by_cases hk2 : a = k'
      · have hk3 : ¬(k' = k) := fun h => ha (hk2.trans h)
        simp [pyLookup, ha, hk2, hk3]
      · simp [pyLookup, ha, hk2, ih]

theorem pyLookup_append (k : String) (d1 d2 : List (String × PyValue)) :
    pyLookup k (d1 ++ d2)
      = match pyLookup k d1 with
        | Option.some v => Option.some v
        | Option.none => pyLookup k d2 := by
  induction d1 with
  | nil => simp [pyLookup]
  | cons p rest ih =>
    obtain ⟨a, b⟩ := p
    by_cases h : a = k <;> simp [pyLookup, h, ih]

theorem dictKeyMem_eq_isSome (d : List (String × PyValue)) (k : String) :
    dictKeyMem d k = (pyLookup k d).isSome := by
  induction d with
  | nil => rfl
  | cons p rest ih =>
    obtain ⟨a, b⟩ := p
    have ih2 : (rest.any fun p => decide (p.1 = k)) = (pyLookup k rest).isSome :=
      ih
    by_cases h : a = k <;> simp [dictKeyMem, pyLookup, h, ih2]

theorem pyLookup_dictSet (d : List (String × PyValue)) (k : String)
    (v : PyValue) (k' : String) :
    pyLookup k' (dictSet d k v)
      = if k' = k then Option.some v else pyLookup k' d := by
  unfold dictSet
  by_cases hmem : dictKeyMem d k = true
  · rw [if_pos hmem, pyLookup_map_replace]
    by_cases hk : k' = k
    · rw [if_pos hk, if_pos hk]
      rw [dictKeyMem_eq_isSome] at hmem
      cases hlk : pyLookup k d with
      | none => rw [hlk] at hmem; cases hmem
      | some w => simp
    · rw [if_neg hk, if_neg hk]
  · rw [if_neg hmem]
    have hnone : pyLookup k d = Option.none := by
      rw [dictKeyMem_eq_isSome] at hmem
      cases hlk : pyLookup k d with
      | none => rfl
      | some w => rw [hlk] at hmem; simp at hmem
    rw [pyLookup_append]
    by_cases hk : k' = k
    · subst hk
      simp [hnone, pyLookup]
    · have hk2 : ¬(k = k') := fun h => hk h.symm
      cases hlk : pyLookup k' d with
      | none => simp [hlk, pyLookup, hk, hk2]
      | some w => simp [hlk, hk]

theorem pyLookup_dictUpdate (d kvs : List (String × PyValue)) (k : String) :
    pyLookup k (dictUpdate d kvs)
      = match lastAssoc k kvs with
        | Option.some v => Option.some v
        | Option.none => pyLookup k d := by
  induction kvs generalizing d with
  | nil => simp [dictUpdate, lastAssoc]
  | cons p rest ih =>
    obtain ⟨a, b⟩ := p
    show pyLookup k (dictUpdate (dictSet d a b) rest) = _
    rw [ih]
    cases hla : lastAssoc k rest with
    | some v => simp [lastAssoc, hla]
    | none =>
      simp only [lastAssoc, hla, pyLookup_dictSet]
      by_cases hk : a = k
      · subst hk
        simp
      · have hk2 : ¬(k = a) := fun h => hk h.symm
        simp [hk, hk2]

theorem lastAssoc_eq_none_of_not_mem {k : String}
    {kvs : List (String × PyValue)} (h : k ∉ kvs.map Prod.fst) :
    lastAssoc k kvs = Option.none := by
  induction kvs with
  | nil => rfl
  | cons p rest ih =>
    obtain ⟨a, b⟩ := p
    simp only [List.map_cons, List.mem_cons] at h
    push_neg at h
    obtain ⟨hne, hrest⟩ := h
    simp [lastAssoc, ih hrest, Ne.symm hne]

theorem lastAssoc_eq_some_of_mem {k : String} {v : PyValue}
    {kvs : List (String × PyValue)} (hnd : (kvs.map Prod.fst).Nodup)
    (hmem : (k, v) ∈ kvs) :
    lastAssoc k kvs = Option.some v := by
  induction kvs with
  | nil => cases hmem
  | cons p rest ih =>
    obtain ⟨a, b⟩ := p
    simp only [List.map_cons, List.nodup_cons] at hnd
    obtain ⟨hnotin, hndr⟩ := hnd
    rcases List.mem_cons.mp hmem with heq | htail
    · injection heq with h1 h2
      subst h1
      subst h2
      have hla : lastAssoc k rest = Option.none :=
        lastAssoc_eq_none_of_not_mem hnotin
      simp [lastAssoc, hla]
    · simp [lastAssoc, ih hndr htail]

theorem key_determines_value {k : String} {a b : PyValue}
    {kvs : List (String × PyValue)} (hnd : (kvs.map Prod.fst).Nodup)
    (ha : (k, a) ∈ kvs) (hb : (k, b) ∈ kvs) : a = b := by
  induction kvs with
  | nil => cases ha
  | cons p rest ih =>
    obtain ⟨x, y⟩ := p
    simp only [List.map_cons, List.nodup_cons] at hnd
    obtain ⟨hnotin, hndr⟩ := hnd
    rcases List.mem_cons.mp ha with haeq | hatail <;>
      rcases List.mem_cons.mp hb with hbeq | hbtail
    · injection haeq with h1 h2
      injection hbeq with h3 h4
      rw [h2, h4]
    · injection haeq with h1 h2
      subst h1
      exact absurd (List.mem_map.mpr ⟨(k, b), hbtail, rfl⟩) hnotin
    · injection hbeq with h1 h2
      subst h1
      exact absurd (List.mem_map.mpr ⟨(k, a), hatail, rfl⟩) hnotin
    · exact ih hndr hatail hbtail

/-- Counterexample to claim C3 as stated: the claim quantifies over every
two successive calls, but a key passed to the second call with a falsy
value (here `""`) keeps the FIRST call's value instead of the second
call's, because the update comprehension filters out falsy values. -/
theorem write_private_data_twice_counterexample :
    pyLookup "token" ( write_private_data_to_file
      ( write_private_data_to_file [] [("token", PyValue.str "x")])
      [("token", PyValue.str "")]) ≠ Option.some (PyValue.str "") ∧
    pyLookup "token" ( write_private_data_to_file
      ( write_private_data_to_file [] [("token", PyValue.str "x")])
      [("token", PyValue.str "")]) = Option.some (PyValue.str "x") := by
  decide

/-- Claim C3 (amended): for every initial file content and every two
successive calls to `write_private_data_to_file` whose keyword arguments
have distinct keys (as Python kwargs do) and truthy values, the
resulting file maps each key passed to both calls to the second call's
value, each key passed to exactly one call to that call's value, and
every other key to its original value; no untouched key is lost. -/
theorem write_private_data_twice_spec (d kw1 kw2 : List (String × PyValue))
    (ht1 : ∀ p ∈ kw1, p.2.truthy = true)
    (ht2 : ∀ p ∈ kw2, p.2.truthy = true)
    (hn1 : (kw1.map Prod.fst).Nodup) (hn2 : (kw2.map Prod.fst).Nodup) :
    (∀ k v2, (k, v2) ∈ kw2 →
      pyLookup k ( write_private_data_to_file
        ( write_private_data_to_file d kw1) kw2) = Option.some v2) ∧
    (∀ k v1, (k, v1) ∈ kw1 → k ∉ kw2.map Prod.fst →
      pyLookup k ( write_private_data_to_file
        ( write_private_data_to_file d kw1) kw2) = Option.some v1) ∧
    (∀ k, k ∉ kw1.map Prod.fst → k ∉ kw2.map Prod.fst →
      pyLookup k ( write_private_data_to_file
        ( write_private_data_to_file d kw1) kw2) = pyLookup k d) := by
  have hf1 : kw1.filter (fun p => p.2.truthy) = kw1 :=
    List.filter_eq_self.mpr ht1
  have hf2 : kw2.filter (fun p => p.2.truthy) = kw2 :=
    List.filter_eq_self.mpr ht2
  unfold write_private_data_to_file
  rw [hf1, hf2]
  refine ⟨?_, ?_, ?_⟩
  · intro k v2 hmem
    rw [pyLookup_dictUpdate, lastAssoc_eq_some_of_mem hn2 hmem]
  · intro k v1 hmem hnot
    rw [pyLookup_dictUpdate, lastAssoc_eq_none_of_not_mem hnot]
    dsimp only
    rw [pyLookup_dictUpdate, lastAssoc_eq_some_of_mem hn1 hmem]
  · intro k h1 h2
    rw [pyLookup_dictUpdate, lastAssoc_eq_none_of_not_mem h2]
    dsimp only
    rw [pyLookup_dictUpdate, lastAssoc_eq_none_of_not_mem h1]

/-- Witness for amended C3: concrete overlapping writes with truthy values
give last-write-wins. -/
theorem write_private_data_twice_spec_witness :
    pyLookup "k" ( write_private_data_to_file
      ( write_private_data_to_file [("z", PyValue.str "q")]
        [("k", PyValue.str "x")]) [("k", PyValue.str "y")])
      = Option.some (PyValue.str "y") :=
  (write_private_data_twice_spec [("z", PyValue.str "q")]
    [("k", PyValue.str "x")] [("k", PyValue.str "y")]
    (by decide) (by decide) (by decide) (by decide)).1 "k"
    (PyValue.str "y") (by decide)

/-- Claim C9: `write_private_data_to_file` silently drops every keyword
argument with a falsy value: the file's previous binding for that key
(present or absent) is left exactly as it was. -/
theorem write_private_data_falsy_dropped
    (d kwargs : List (String × PyValue)) (k : String) (v : PyValue)
    (hmem : (k, v) ∈ kwargs) (hf : v.truthy = false)
    (hnd : (kwargs.map Prod.fst).Nodup) :
    pyLookup k ( write_private_data_to_file d kwargs) = pyLookup k d := by
  unfold write_private_data_to_file
  rw [pyLookup_dictUpdate]
  have hnot : k ∉ (kwargs.filter (fun p => p.2.truthy)).map Prod.fst := by
    intro hk
    rcases List.mem_map.mp hk with ⟨⟨k2, v2⟩, hp, hfst⟩
    dsimp at hfst
    have hmem2 : (k, v2) ∈ kwargs := by
      rw [← hfst]
      exact List.mem_of_mem_filter hp
    have htr : v2.truthy = true := by simpa using List.of_mem_filter hp
    have hvv : v2 = v := key_determines_value hnd hmem2 hmem
    rw [hvv, hf] at htr
    cases htr
  rw [lastAssoc_eq_none_of_not_mem hnot]

/-- Witness for C9: a concrete falsy write leaves the stored value
untouched. -/
theorem write_private_data_falsy_dropped_witness :
    pyLookup "k" ( write_private_data_to_file [("k", PyValue.str "old")]
      [("k", PyValue.str "")]) = pyLookup "k" [("k", PyValue.str "old")] :=
  write_private_data_falsy_dropped [("k", PyValue.str "old")]
    [("k", PyValue.str "")] "k" (PyValue.str "")
    (by decide) (by decide) (by decide)

end CommonHostApi
